import Mathlib

/-!
Verification of the SpiderRobot positioner core (`spiderrobot/positioner.py`)
against its natural-language specification.

The Python module is shallowly embedded below.  Real-valued float arithmetic
is idealised over `ℝ`; 3-D numpy arrays become triples of reals; the serial
link becomes an explicit stream of query responses (`Channel`); the two
unbounded `while` loops of the source (`Positioner.getPos` and the polling
loop of `Positioner.moveToPos`) become fuel-indexed recursions, where fuel
exhaustion (`none` / `RunOut.hang`) means the loop was still running after
that many iterations.
-/

namespace SpiderRobot

noncomputable section

/-- A 3-D point, mirroring the `[x,y,z]` arrays of the source. -/
abbrev Point : Type := ℝ × ℝ × ℝ

/-- Coordinatewise subtraction of 3-D points (numpy array subtraction). -/
def pSub (a b : Point) : Point := (a.1 - b.1, a.2.1 - b.2.1, a.2.2 - b.2.2)

/-- Coordinatewise addition of 3-D points (numpy array addition). -/
def pAdd (a b : Point) : Point := (a.1 + b.1, a.2.1 + b.2.1, a.2.2 + b.2.2)

/-- `magnitude(vec)` of the source on a list of reals:
`np.sqrt(sum(np.asarray(vec)**2))`.  Used both for 3-D vectors and for the
list of per-axis angle differences in `moveToPos`. -/
def magnitudeL (l : List ℝ) : ℝ := Real.sqrt ((l.map (fun x => x ^ 2)).sum)

/-- `magnitude` applied to a 3-D vector. -/
def magnitude3 (p : Point) : ℝ := magnitudeL [p.1, p.2.1, p.2.2]

/-- The source's hand-rolled `round(float)`: `int(f-0.5)` for negative `f`
(`int` truncates toward zero, i.e. ceiling on negatives), else `int(f+0.5)`. -/
def pyRound (x : ℝ) : ℤ := if x < 0 then ⌈x - 1 / 2⌉ else ⌊x + 1 / 2⌋

/-- Python `int()` applied to a real: truncation toward zero. -/
def truncInt (x : ℝ) : ℤ := if x < 0 then ⌈x⌉ else ⌊x⌋

/-- `Axis`: kinematic abstraction of one winch (source class `Axis`). -/
structure Axis where
  id : ℕ
  diameter : ℝ
  placed : Point
  attached : Point
  target : Point
  offsetRot : ℝ

/-- `Axis.len2rot`: `360.0*l/(np.pi*self.diameter)`. -/
def Axis.len2rot (a : Axis) (l : ℝ) : ℝ := 360 * l / (Real.pi * a.diameter)

/-- `Axis.dist` property: distance from `placed` to `target`. -/
def Axis.dist (a : Axis) : ℝ := magnitude3 (pSub a.target a.placed)

/-- `Axis.rot` property: absolute rotation implied by `dist`. -/
def Axis.rot (a : Axis) : ℝ := a.len2rot a.dist

/-- `Axis.angle` property: relative angle `rot - offsetRot`. -/
def Axis.angle (a : Axis) : ℝ := a.rot - a.offsetRot

/-- `Axis.setTarget`: `self.target = np.array(target)+self.attached`. -/
def Axis.setTarget (a : Axis) (t : Point) : Axis := { a with target := pAdd t a.attached }

/-- `Axis.__init__`: stores the fields, sets `target = target + attached`
and then `offsetRot = self.rot` computed on that state. -/
def Axis.make (id : ℕ) (diameter : ℝ) (placed target attached : Point) : Axis :=
  let a0 : Axis := { id := id, diameter := diameter, placed := placed,
                     attached := attached, target := pAdd target attached, offsetRot := 0 }
  { a0 with offsetRot := a0.rot }

/-- Modelled from the spec: `rotationToLength` (spec §4.1) is declared as the
exact inverse of `lengthToRotation` but is absent from the source (only
`len2rot` exists there); following the spec's formula it is
`degrees * π * diameter / 360`. -/
def Axis.rot2len (a : Axis) (deg : ℝ) : ℝ := deg * Real.pi * a.diameter / 360

/-! ### Decimal rendering and parsing (Python `'{}'.format` and `int()`) -/

/-- The decimal digit character for `n` (callers pass `n < 10`). -/
def digitChar (n : ℕ) : Char :=
  match n with
  | 0 => '0' | 1 => '1' | 2 => '2' | 3 => '3' | 4 => '4'
  | 5 => '5' | 6 => '6' | 7 => '7' | 8 => '8' | _ => '9'

/-- Decimal rendering of a natural number, fuel-structured so that it
reduces in the kernel; `fuel` bounds the number of digits produced. -/
def natCharsAux (fuel n : ℕ) : List Char :=
  match fuel with
  | 0 => []
  | Nat.succ f => if n < 10 then [digitChar n] else natCharsAux f (n / 10) ++ [digitChar (n % 10)]

/-- Decimal rendering of a natural number, as Python `'{}'.format(n)`. -/
def natChars (n : ℕ) : List Char := natCharsAux (n + 1) n

/-- Decimal rendering of an integer, as Python `'{}'.format(i)`. -/
def intChars (i : ℤ) : List Char := if i < 0 then '-' :: natChars i.natAbs else natChars i.toNat

/-- Numeric value of a decimal digit character, `none` on a non-digit. -/
def digitVal (c : Char) : Option ℕ := if '0' ≤ c ∧ c ≤ '9' then some (c.toNat - 48) else none

/-- Python `int()` on a nonempty all-digit string. -/
def parseNat (l : List Char) : Option ℕ :=
  if l = [] then none
  else l.foldl (fun acc c => acc.bind fun n => (digitVal c).map fun d => 10 * n + d) (some 0)

/-- Python `int()` on a string: optional sign followed by digits;
`none` models the `ValueError` raised on anything else. -/
def parseInt (l : List Char) : Option ℤ :=
  match l with
  | '-' :: t => (parseNat t).map fun n => -(n : ℤ)
  | '+' :: t => (parseNat t).map fun n => (n : ℤ)
  | _ => (parseNat l).map fun n => (n : ℤ)

/-! ### The on-wire command strings written by the core -/

/-- `'AXIS{}:POW ON'.format(id)` (from `addAxis`). -/
def powOnCmd (id : ℕ) : List Char := ("AXIS").toList ++ natChars id ++ (":POW ON").toList

/-- `'AXIS{}:POW?'.format(id)` (from `addAxis`). -/
def powQCmd (id : ℕ) : List Char := ("AXIS").toList ++ natChars id ++ (":POW?").toList

/-- `'AXIS{}:RATE {}'.format(id, r)` (from `moveToPos`). -/
def rateCmd (id : ℕ) (r : ℤ) : List Char :=
  ("AXIS").toList ++ natChars id ++ (":RATE ").toList ++ intChars r

/-- `'AXIS{}:POS {}'.format(id, p)` (from `moveToPos`). -/
def posSetCmd (id : ℕ) (p : ℤ) : List Char :=
  ("AXIS").toList ++ natChars id ++ (":POS ").toList ++ intChars p

/-- `'AXIS{}:POS?'.format(id)` (from `getPos`). -/
def posQCmd (id : ℕ) : List Char := ("AXIS").toList ++ natChars id ++ (":POS?").toList

/-! ### The Command Channel and the two unbounded loops of the source -/

/-- The Command Channel seen from the core: the `k`-th query issued on the
serial link yields the response `ch k` (already stripped of control
characters, as `Positioner.send` does); `[]` is an empty/timed-out read. -/
def Channel : Type := ℕ → List Char

/-- `Positioner.getPos`: `resp = None; while not resp: resp = send('AXIS{}:POS?')`
then `int(resp)`.  `q` is the index of the next query on the channel, `fuel`
bounds the observed attempts.  Result: `(outcome, next query index, commands sent)`
where the outcome is `none` if the loop was still running after `fuel`
attempts, `some none` if `int()` raised `ValueError`, and `some (some v)`
for a parsed angle `v`. -/
def getPosF (id : ℕ) (ch : Channel) (q fuel : ℕ) : Option (Option ℤ) × ℕ × List (List Char) :=
  match fuel with
  | 0 => (none, q, [])
  | Nat.succ f =>
    let resp := ch q
    if resp = [] then
      let r := getPosF id ch (q + 1) f
      (r.1, r.2.1, posQCmd id :: r.2.2)
    else (some (parseInt resp), q + 1, [posQCmd id])

/-- Outcome of a polling loop: still running when the fuel ran out, aborted
by a Python exception, or finished normally. -/
inductive RunOut where
  | hang : RunOut
  | raised : RunOut
  | ok : RunOut
deriving DecidableEq

/-- One axis's polling loop from `moveToPos`:
`while abs(getPos(id) - round(angle)) > 1:` with the stuck-recovery re-send
when `notThereCnt` reaches 20 (which also resets the counter to 0) and the
`notThereCnt > 200` break.  `tgt` is `round(ax.angle)`, `cnt` is
`notThereCnt`, `inFuel` bounds each inner `getPos` loop and `fuel` the
outer iterations. -/
def pollAxis (id : ℕ) (tgt : ℤ) (ch : Channel) (inFuel q cnt fuel : ℕ) :
    RunOut × ℕ × List (List Char) :=
  match fuel with
  | 0 => (RunOut.hang, q, [])
  | Nat.succ f =>
    let g := getPosF id ch q inFuel
    match g.1 with
    | none => (RunOut.hang, g.2.1, g.2.2)
    | some none => (RunOut.raised, g.2.1, g.2.2)
    | some (some p) =>
      if (p - tgt).natAbs ≤ 1 then (RunOut.ok, g.2.1, g.2.2)
      else if cnt + 1 = 20 then
        let r := pollAxis id tgt ch inFuel g.2.1 0 f
        (r.1, r.2.1, g.2.2 ++ rateCmd id 10 :: posSetCmd id tgt :: r.2.2)
      else if cnt + 1 > 200 then (RunOut.ok, g.2.1, g.2.2)
      else
        let r := pollAxis id tgt ch inFuel g.2.1 (cnt + 1) f
        (r.1, r.2.1, g.2.2 ++ r.2.2)

/-- The `for ax in self.axes:` wrapper around the per-axis polling loop;
a raised exception propagates (aborting the remaining axes), fuel
exhaustion stops the observation. -/
def pollAxes (axes : List Axis) (ch : Channel) (inFuel q fuel : ℕ) :
    RunOut × ℕ × List (List Char) :=
  match axes with
  | [] => (RunOut.ok, q, [])
  | ax :: rest =>
    let r := pollAxis ax.id (pyRound ax.angle) ch inFuel q 0 fuel
    match r.1 with
    | RunOut.ok =>
      let r2 := pollAxes rest ch inFuel r.2.1 fuel
      (r2.1, r2.2.1, r.2.2 ++ r2.2.2)
    | o => (o, r.2.1, r.2.2)

/-! ### The Positioner -/

/-- Mutable state of a `Positioner`: the current platform target and the
registered axes in registration order. -/
structure PState where
  tarPos : Point
  axes : List Axis

/-- `np.clip(x, lo, hi)` on scalars. -/
def clipR (x lo hi : ℝ) : ℝ := min (max x lo) hi

/-- The per-axis rotation rate computed in `moveToPos`:
`np.clip(ax.len2rot(vel)*abs(angleDiff)/angleMagn, 1, 1000)`. -/
def moveRate (ax : Axis) (angleDiff magn vel : ℝ) : ℝ :=
  clipR (ax.len2rot vel * |angleDiff| / magn) 1 1000

/-- The first loop of `moveToPos`: for each axis, the difference between
the angle after `setTarget(pos)` and the angle before. -/
def angleDiffs (axes : List Axis) (pos : Point) : List ℝ :=
  axes.map fun ax => (ax.setTarget pos).angle - ax.angle

/-- The rate/position command dispatch of `moveToPos` (lines
`send('AXIS{}:RATE {}')` / `send('AXIS{}:POS {}')` per axis), on the axes
already retargeted and the recorded angle differences. -/
def sendRateAndPos (axes2 : List Axis) (diffs : List ℝ) (vel : ℝ) : List (List Char) :=
  (axes2.zip diffs).flatMap fun p =>
    [rateCmd p.1.id (pyRound (moveRate p.1 p.2 (magnitudeL diffs) vel)),
     posSetCmd p.1.id (pyRound p.1.angle)]

/-- `Positioner.moveToPos(pos, vel)`.  Returns the state after the call
(`none` when the call was still blocked in a polling loop after the given
fuel, or aborted by an exception — in both cases `tarPos` was not updated)
together with every command written to the Command Channel. -/
def moveToPos (st : PState) (pos : Point) (vel : ℝ) (ch : Channel) (inFuel fuel : ℕ) :
    Option PState × List (List Char) :=
  if magnitude3 (pSub pos st.tarPos) < 1 / 1000 then (some st, [])
  else
    let axes2 := st.axes.map fun ax => ax.setTarget pos
    let diffs := angleDiffs st.axes pos
    let sendCmds := sendRateAndPos axes2 diffs vel
    let pr := pollAxes axes2 ch inFuel 0 fuel
    (if pr.1 = RunOut.ok then some ⟨pos, axes2⟩ else none, sendCmds ++ pr.2.2)

/-- `Positioner.addAxis(id, placed, diameter, attached)`: powers the axis on,
queries the power state (the response is only logged) and unconditionally
appends the new `Axis`.  Returns the new state and the commands written. -/
def addAxis (st : PState) (id : ℕ) (placed : Point) (diameter : ℝ) (attached : Point) :
    PState × List (List Char) :=
  (⟨st.tarPos, st.axes ++ [Axis.make id diameter placed st.tarPos attached]⟩,
   [powOnCmd id, powQCmd id])

/-! ### Line motion -/

/-- `np.linspace(a, b, n)`: `n` evenly spaced samples from `a` to `b`. -/
def linspace (a b : ℝ) (n : ℕ) : List ℝ :=
  (List.range n).map fun (i : ℕ) => a + (b - a) * (i : ℝ) / ((n : ℝ) - 1)

/-- `parable(steps)`: `1.0-((linspace(0,1,steps)-0.5)/0.5)**2`. -/
def parable (n : ℕ) : List ℝ :=
  (linspace 0 1 n).map fun x => 1 - ((x - 1 / 2) / (1 / 2)) ^ 2

/-- The per-segment velocities of `moveOnLine`: `maxVel*((1.0-acc)+acc*parable(steps))`. -/
def velsOf (maxVel acc : ℝ) (n : ℕ) : List ℝ :=
  (parable n).map fun p => maxVel * ((1 - acc) + acc * p)

/-- `Positioner.moveOnLine(pos, maxVel, acc, res)`, abstracted to the list of
`(target, velocity)` pairs passed to the successive `moveToPos` calls. -/
def moveOnLine (st : PState) (pos : Point) (maxVel acc res : ℝ) : List (Point × ℝ) :=
  let oldP := st.tarPos
  let dist := magnitude3 (pSub pos oldP)
  let steps : ℤ := truncInt (dist / res)
  if 1 < steps then
    let n := steps.toNat
    List.zipWith (fun xyz v => (xyz, v))
      (List.zipWith (fun x yz => (x, yz.1, yz.2)) (linspace oldP.1 pos.1 n)
        (List.zipWith (fun y z => (y, z)) (linspace oldP.2.1 pos.2.1 n)
          (linspace oldP.2.2 pos.2.2 n)))
      (velsOf maxVel acc n)
  else [(pos, maxVel)]

/-! ### The on-wire syntax of spec §6 -/

/-- A nonempty string of decimal digits (the `<id>` of the spec's command
templates). -/
def DigitStr (l : List Char) : Prop := l ≠ [] ∧ ∀ c ∈ l, c.isDigit

/-- A `<numeric>` in the spec's command templates: decimal digits with an
optional leading minus sign. -/
def NumStr (l : List Char) : Prop := DigitStr l ∨ ∃ t, l = '-' :: t ∧ DigitStr t

/-- The five command templates of spec §6, parameterised by the literal
text standing before the axis id (the spec writes `AX<id>:...`). -/
def CoreForm (pre s : List Char) : Prop :=
  ∃ idS, DigitStr idS ∧
    (s = pre ++ idS ++ (":POW ON").toList ∨
     s = pre ++ idS ++ (":POW?").toList ∨
     (∃ nS, NumStr nS ∧ s = pre ++ idS ++ (":RATE ").toList ++ nS) ∨
     (∃ nS, NumStr nS ∧ s = pre ++ idS ++ (":POS ").toList ++ nS) ∨
     s = pre ++ idS ++ (":POS?").toList)

/-- A command of spec §6: one of the five templates, optionally suffixed
with `;*OPC?`. -/
def WireForm (pre s : List Char) : Prop :=
  ∃ core, CoreForm pre core ∧ (s = core ∨ s = core ++ (";*OPC?").toList)

/-! ### Concrete states and channels used in the claims -/

/-- A channel on which every query reads back empty (timeout on every read). -/
def alwaysEmpty : Channel := fun _ => []

/-- A channel that fails the first two queries and answers `42` from the third on. -/
def failTwice : Channel := fun q => if q < 2 then [] else ['4', '2']

/-- `Positioner.getPos` on this channel runs forever: after any number of
attempts it has neither returned nor raised. -/
def getPosNeverReturns (id : ℕ) (ch : Channel) (q : ℕ) : Prop :=
  ∀ fuel, (getPosF id ch q fuel).1 = none

/-- An axis of diameter 1 anchored at the origin, registered while the
platform target is the origin. -/
def axUnit : Axis := Axis.make 1 1 (0, 0, 0) (0, 0, 0) (0, 0, 0)

/-! ### Helper lemmas -/

lemma magnitude3_x (x : ℝ) : magnitude3 (x, 0, 0) = |x| := by
  have : magnitude3 (x, 0, 0) = Real.sqrt (x ^ 2) := by
    simp [magnitude3, magnitudeL]
  rw [this, Real.sqrt_sq_eq_abs]

lemma magnitude3_origin_sub (x : ℝ) :
    magnitude3 (pSub (x, 0, 0) ((0, 0, 0) : Point)) = |x| := by
  have : pSub (x, 0, 0) ((0, 0, 0) : Point) = (x, 0, 0) := by
    simp [pSub]
  rw [this, magnitude3_x]

lemma getPosF_alwaysEmpty (fuel q : ℕ) : (getPosF 1 alwaysEmpty q fuel).1 = none := by
  induction fuel generalizing q with
  | zero => rfl
  | succ f ih => simpa [getPosF, alwaysEmpty] using ih (q + 1)

/-! ### C9 — the relative angle right after construction is zero -/

/-- C9: for every axis constructed with `Axis.__init__` (any id, positive
diameter, any placement, initial target and attachment offset), the
relative angle `rot - offsetRot` is exactly 0 immediately after
construction, because `offsetRot` is set to the rotation implied by the
initial placed-to-target distance. -/
theorem C9_angle_zero_at_construction (id : ℕ) (diameter : ℝ)
    (placed target attached : Point) (hd : 0 < diameter) :
    (Axis.make id diameter placed target attached).angle = 0 := by
  simp [Axis.make, Axis.angle, Axis.rot, Axis.dist, Axis.len2rot]

/-- Witness for C9 at a concrete axis. -/
theorem C9_witness :
    0 < (1 : ℝ) ∧ (Axis.make 1 1 (0, 0, 0) (0, 0, 0) (0, 0, 0)).angle = 0 :=
  ⟨by norm_num, C9_angle_zero_at_construction 1 1 (0, 0, 0) (0, 0, 0) (0, 0, 0) (by norm_num)⟩

/-! ### C4 — length/rotation conversion and round trip -/

/-- C4: for every axis with `diameter > 0`, `len2rot l = 360*l/(π*diameter)`,
and the spec-modelled inverse `rot2len` satisfies the round-trip law
`rot2len (len2rot l) = l` for all `l ≥ 0` (exactly, over `ℝ`). -/
theorem C4_len2rot_roundtrip (a : Axis) (l : ℝ) (hd : 0 < a.diameter) (hl : 0 ≤ l) :
    a.len2rot l = 360 * l / (Real.pi * a.diameter) ∧ a.rot2len (a.len2rot l) = l := by
  refine ⟨rfl, ?_⟩
  have hπ : Real.pi ≠ 0 := Real.pi_ne_zero
  have hdn : a.diameter ≠ 0 := ne_of_gt hd
  unfold Axis.rot2len Axis.len2rot
  field_simp
  ring

/-- Witness for C4 at a concrete axis and length. -/
theorem C4_witness :
    0 < axUnit.diameter ∧ 0 ≤ (2 : ℝ) ∧ axUnit.rot2len (axUnit.len2rot 2) = 2 :=
  ⟨by norm_num [axUnit, Axis.make], by norm_num,
   (C4_len2rot_roundtrip axUnit 2 (by norm_num [axUnit, Axis.make]) (by norm_num)).2⟩

/-! ### C8 — addAxis performs no validation -/

/-- C8 counterexample: calling `addAxis` with an id that is already
registered and a diameter of 0 still sends the power-on commands and still
registers a second axis — the claimed rejection does not exist. -/
theorem C8_counterexample :
    (addAxis ⟨(0, 0, 0), [axUnit]⟩ 1 (0, 0, 0) 0 (0, 0, 0)).2 ≠ [] ∧
    (addAxis ⟨(0, 0, 0), [axUnit]⟩ 1 (0, 0, 0) 0 (0, 0, 0)).1.axes.length = 2 := by
  constructor
  · simp [addAxis]
  · simp [addAxis]

/-- C8 amended: `addAxis` performs no duplicate-id and no diameter
validation: for every state and every argument list it sends exactly the
power-on and power-query commands and unconditionally appends the new
axis. -/
theorem C8_no_validation (st : PState) (id : ℕ) (placed : Point) (diameter : ℝ)
    (attached : Point) :
    (addAxis st id placed diameter attached).2 = [powOnCmd id, powQCmd id] ∧
    (addAxis st id placed diameter attached).1.axes =
      st.axes ++ [Axis.make id diameter placed st.tarPos attached] :=
  ⟨rfl, rfl⟩

/-! ### C6 — moveToPos within tolerance -/

/-- C6 amended: when the Euclidean distance between `pos` and the current
target is strictly below the hard-coded tolerance `0.001`, `moveToPos`
sends no command and leaves the whole state (target and every axis)
unchanged. -/
theorem C6_noop_below_tolerance (st : PState) (pos : Point) (vel : ℝ) (ch : Channel)
    (inFuel fuel : ℕ) (h : magnitude3 (pSub pos st.tarPos) < 1 / 1000) :
    moveToPos st pos vel ch inFuel fuel = (some st, []) := by
  unfold moveToPos
  rw [if_pos h]

/-- Witness for C6 at a concrete state. -/
theorem C6_witness :
    magnitude3 (pSub (0, 0, 0) ((0, 0, 0) : Point)) < 1 / 1000 ∧
    moveToPos ⟨(0, 0, 0), [axUnit]⟩ (0, 0, 0) (1 / 100) alwaysEmpty 1 1 =
      (some ⟨(0, 0, 0), [axUnit]⟩, []) := by
  have h : magnitude3 (pSub (0, 0, 0) ((0, 0, 0) : Point)) < 1 / 1000 := by
    rw [magnitude3_origin_sub]
    norm_num
  exact ⟨h, C6_noop_below_tolerance ⟨(0, 0, 0), [axUnit]⟩ (0, 0, 0) (1 / 100) alwaysEmpty 1 1 h⟩

/-- C6 counterexample: at distance exactly `0.001` — within the tolerance
in the claim's inclusive sense — `moveToPos` is not a no-op: the strict
`<` in the source lets the move proceed and rate/position commands are
written to the channel. -/
theorem C6_counterexample :
    magnitude3 (pSub (1 / 1000, 0, 0) ((0, 0, 0) : Point)) ≤ 1 / 1000 ∧
    (moveToPos ⟨(0, 0, 0), [axUnit]⟩ (1 / 1000, 0, 0) (1 / 100) alwaysEmpty 1 1).2 ≠ [] := by
  have hm : magnitude3 (pSub (1 / 1000, 0, 0) ((0, 0, 0) : Point)) = 1 / 1000 := by
    rw [magnitude3_origin_sub]
    norm_num
  constructor
  · rw [hm]
  · unfold moveToPos
    rw [if_neg (by rw [hm]; norm_num)]
    simp [sendRateAndPos, angleDiffs]

/-! ### C3 — getPos retry behaviour -/

/-- C3 counterexample: on a channel whose reads always come back empty,
`getPos` does not raise after 3 attempts — it never returns at all: the
`while not resp` loop of the source retries forever, with no retry budget. -/
theorem C3_counterexample :
    getPosNeverReturns 1 alwaysEmpty 0 ∧ (getPosF 1 alwaysEmpty 0 3).1 = none :=
  ⟨fun fuel => getPosF_alwaysEmpty fuel 0, getPosF_alwaysEmpty 3 0⟩

/-- C3 amended: `getPos` retries indefinitely until a nonempty response
arrives and never raises a retry-exhaustion error: a channel that fails
the first 2 attempts and answers on the third makes `getPos` return that
value on its third attempt, and a channel that always fails makes `getPos`
loop forever. -/
theorem C3_retry_behaviour (ch : Channel) (v : ℤ) (h0 : ch 0 = []) (h1 : ch 1 = [])
    (h2 : parseInt (ch 2) = some v) :
    (getPosF 1 ch 0 3).1 = some (some v) ∧ getPosNeverReturns 1 alwaysEmpty 0 := by
  refine ⟨?_, fun fuel => getPosF_alwaysEmpty fuel 0⟩
  have hne : ch 2 ≠ [] := by
    intro he
    rw [he] at h2
    simp [parseInt, parseNat] at h2
  show (getPosF 1 ch 0 (Nat.succ (Nat.succ (Nat.succ 0)))).1 = some (some v)
  simp [getPosF, h0, h1, hne, h2]

/-- Witness for C3 on the concrete flaky channel. -/
theorem C3_witness :
    (getPosF 1 failTwice 0 3).1 = some (some 42) ∧ getPosNeverReturns 1 alwaysEmpty 0 :=
  C3_retry_behaviour failTwice 42 (by decide) (by decide) (by decide)

/-! ### Concrete axes whose diameter makes `len2rot` the identity (or half) -/

/-- An axis of diameter `360/π` (so `len2rot` is the identity), anchored at
the origin and registered with the platform target at the origin. -/
def axPi : Axis := Axis.make 1 (360 / Real.pi) (0, 0, 0) (0, 0, 0) (0, 0, 0)

/-- An axis of diameter `720/π` (so `len2rot` halves), likewise at the origin. -/
def axHalf : Axis := Axis.make 2 (720 / Real.pi) (0, 0, 0) (0, 0, 0) (0, 0, 0)

lemma axPi_len2rot (v : ℝ) : axPi.len2rot v = v := by
  show 360 * v / (Real.pi * (360 / Real.pi)) = v
  have h : Real.pi * (360 / Real.pi) = 360 := by
    field_simp
  rw [h]
  field_simp

lemma axHalf_len2rot (v : ℝ) : axHalf.len2rot v = v / 2 := by
  show 360 * v / (Real.pi * (720 / Real.pi)) = v / 2
  have h : Real.pi * (720 / Real.pi) = 720 := by
    field_simp
  rw [h]
  ring

lemma axPi_offsetRot : axPi.offsetRot = 0 := by
  have h0 : magnitude3 (pSub (pAdd (0, 0, 0) (0, 0, 0)) ((0, 0, 0) : Point)) = 0 := by
    have : pAdd ((0, 0, 0) : Point) (0, 0, 0) = ((0, 0, 0) : Point) := by
      simp [pAdd]
    rw [this, magnitude3_origin_sub]
    norm_num
  show (360 : ℝ) * magnitude3 (pSub (pAdd (0, 0, 0) (0, 0, 0)) (0, 0, 0)) /
      (Real.pi * (360 / Real.pi)) = 0
  rw [h0]
  ring

lemma axPi_angle_at (x : ℝ) (hx : 0 ≤ x) : (axPi.setTarget (x, 0, 0)).angle = x := by
  have htgt : (axPi.setTarget (x, 0, 0)).target = (x, 0, 0) := by
    show pAdd (x, 0, 0) axPi.attached = (x, 0, 0)
    have : axPi.attached = ((0, 0, 0) : Point) := rfl
    rw [this]
    simp [pAdd]
  have hdist : (axPi.setTarget (x, 0, 0)).dist = x := by
    unfold Axis.dist
    rw [htgt]
    have : (axPi.setTarget (x, 0, 0)).placed = ((0, 0, 0) : Point) := rfl
    rw [this, magnitude3_origin_sub, abs_of_nonneg hx]
  unfold Axis.angle Axis.rot
  have hd : (axPi.setTarget (x, 0, 0)).diameter = axPi.diameter := rfl
  have hlen : (axPi.setTarget (x, 0, 0)).len2rot (axPi.setTarget (x, 0, 0)).dist = x := by
    rw [hdist]
    show (360 : ℝ) * x / (Real.pi * (360 / Real.pi)) = x
    have h : Real.pi * (360 / Real.pi) = 360 := by field_simp
    rw [h]
    field_simp
  have hoff : (axPi.setTarget (x, 0, 0)).offsetRot = 0 := axPi_offsetRot
  rw [hlen, hoff, sub_zero]

lemma axPi_angle_origin : axPi.angle = 0 := by
  unfold Axis.angle Axis.rot
  rw [axPi_offsetRot, sub_zero]
  have hdist : axPi.dist = 0 := by
    unfold Axis.dist
    have ht : axPi.target = ((0, 0, 0) : Point) := by
      show pAdd (0, 0, 0) (0, 0, 0) = ((0, 0, 0) : Point)
      simp [pAdd]
    have hp : axPi.placed = ((0, 0, 0) : Point) := rfl
    rw [ht, hp, magnitude3_origin_sub]
    norm_num
  rw [hdist]
  show (360 : ℝ) * 0 / (Real.pi * (360 / Real.pi)) = 0
  ring

/-! ### C10 — the speed-allocation divisor -/

lemma sumsq_pos (l : List ℝ) (h : ∃ d ∈ l, d ≠ 0) : 0 < (l.map (fun x => x ^ 2)).sum := by
  induction l with
  | nil =>
    rcases h with ⟨d, hd, _⟩
    simp at hd
  | cons a t ih =>
    rcases h with ⟨d, hd, hdne⟩
    have ht0 : (0 : ℝ) ≤ (t.map (fun x => x ^ 2)).sum := by
      apply List.sum_nonneg
      intro x hx
      rcases List.mem_map.mp hx with ⟨y, _, rfl⟩
      positivity
    simp only [List.map_cons, List.sum_cons]
    rcases List.mem_cons.mp hd with rfl | hmem
    · have ha : 0 < d ^ 2 := by positivity
      linarith
    · have ha : (0 : ℝ) ≤ a ^ 2 := by positivity
      have := ih ⟨d, hmem, hdne⟩
      linarith

/-- C10 amended: the divisor `angleMagn` used in `moveToPos` is nonzero
whenever some axis has a nonzero angle difference; passing the initial
distance check does not guarantee this (it fails with zero axes, and with
axes whose cable lengths the move leaves unchanged). -/
theorem C10_divisor_nonzero (axes : List Axis) (pos : Point)
    (h : ∃ d ∈ angleDiffs axes pos, d ≠ 0) :
    magnitudeL (angleDiffs axes pos) ≠ 0 := by
  unfold magnitudeL
  exact ne_of_gt (Real.sqrt_pos.mpr (sumsq_pos _ h))

/-- C10 counterexample: with no axis registered, a move of 1 m passes the
initial distance check while the divisor `angleMagn` is 0, so the per-axis
rate division is not well-defined. -/
theorem C10_counterexample :
    ¬ magnitude3 (pSub (1, 0, 0) ((0, 0, 0) : Point)) < 1 / 1000 ∧
    magnitudeL (angleDiffs [] (1, 0, 0)) = 0 := by
  constructor
  · rw [magnitude3_origin_sub]
    norm_num
  · simp [angleDiffs, magnitudeL]

/-- Witness for C10 with one axis whose cable length changes. -/
theorem C10_witness : magnitudeL (angleDiffs [axPi] (5, 0, 0)) ≠ 0 := by
  apply C10_divisor_nonzero
  refine ⟨5, ?_, by norm_num⟩
  have h : angleDiffs [axPi] (5, 0, 0) = [5] := by
    unfold angleDiffs
    rw [List.map_cons, List.map_nil, axPi_angle_at 5 (by norm_num), axPi_angle_origin]
    norm_num
  rw [h]
  simp

/-! ### C1 — proportional rate allocation -/

lemma clipR_of_mem (x : ℝ) (h1 : 1 ≤ x) (h2 : x ≤ 1000) : clipR x 1 1000 = x := by
  unfold clipR
  rw [max_eq_left h1, min_eq_left h2]

/-- C1 amended: in `moveToPos`, each axis's commanded rate is
`clip(len2rot(vel)*|angleDiff|/angleMagn, 1, 1000)`, and for any two axes
**of equal diameter** whose unclamped rates lie in `[1, 1000]`, the ratio of
the commanded rates equals the ratio of the `|angleDiff|` values. -/
theorem C1_rate_allocation (ax1 ax2 : Axis) (d1 d2 magn vel : ℝ)
    (hd : ax1.diameter = ax2.diameter)
    (h11 : 1 ≤ ax1.len2rot vel * |d1| / magn) (h12 : ax1.len2rot vel * |d1| / magn ≤ 1000)
    (h21 : 1 ≤ ax2.len2rot vel * |d2| / magn) (h22 : ax2.len2rot vel * |d2| / magn ≤ 1000) :
    moveRate ax1 d1 magn vel = ax1.len2rot vel * |d1| / magn ∧
    moveRate ax2 d2 magn vel = ax2.len2rot vel * |d2| / magn ∧
    moveRate ax1 d1 magn vel * |d2| = moveRate ax2 d2 magn vel * |d1| := by
  have e1 : moveRate ax1 d1 magn vel = ax1.len2rot vel * |d1| / magn := by
    unfold moveRate
    exact clipR_of_mem _ h11 h12
  have e2 : moveRate ax2 d2 magn vel = ax2.len2rot vel * |d2| / magn := by
    unfold moveRate
    exact clipR_of_mem _ h21 h22
  refine ⟨e1, e2, ?_⟩
  rw [e1, e2]
  have hL : ax1.len2rot vel = ax2.len2rot vel := by
    unfold Axis.len2rot
    rw [hd]
  rw [hL]
  ring

/-- C1 counterexample: two axes of different diameters with angle
differences 3 and 4 and `angleMagn = 5`; both unclamped rates lie in
`[1, 1000]`, yet the commanded rates are 6 and 4, whose ratio is not
`3 : 4` — the claimed proportionality fails across unequal diameters. -/
theorem C1_counterexample :
    1 ≤ axPi.len2rot 10 * |(3 : ℝ)| / 5 ∧ axPi.len2rot 10 * |(3 : ℝ)| / 5 ≤ 1000 ∧
    1 ≤ axHalf.len2rot 10 * |(4 : ℝ)| / 5 ∧ axHalf.len2rot 10 * |(4 : ℝ)| / 5 ≤ 1000 ∧
    moveRate axPi 3 5 10 * |(4 : ℝ)| ≠ moveRate axHalf 4 5 10 * |(3 : ℝ)| := by
  have hA : axPi.len2rot 10 * |(3 : ℝ)| / 5 = 6 := by
    rw [axPi_len2rot]
    norm_num
  have hB : axHalf.len2rot 10 * |(4 : ℝ)| / 5 = 4 := by
    rw [axHalf_len2rot]
    norm_num
  have hmA : moveRate axPi 3 5 10 = 6 := by
    unfold moveRate
    rw [hA, clipR_of_mem 6 (by norm_num) (by norm_num)]
  have hmB : moveRate axHalf 4 5 10 = 4 := by
    unfold moveRate
    rw [hB, clipR_of_mem 4 (by norm_num) (by norm_num)]
  refine ⟨by rw [hA]; norm_num, by rw [hA]; norm_num, by rw [hB]; norm_num,
    by rw [hB]; norm_num, ?_⟩
  rw [hmA, hmB]
  norm_num

/-- Witness for C1 on two equal-diameter axes. -/
theorem C1_witness :
    moveRate axPi 3 5 10 * |(4 : ℝ)| = moveRate axPi 4 5 10 * |(3 : ℝ)| := by
  have h3 : 1 ≤ axPi.len2rot 10 * |(3 : ℝ)| / 5 ∧ axPi.len2rot 10 * |(3 : ℝ)| / 5 ≤ 1000 := by
    rw [axPi_len2rot]
    norm_num
  have h4 : 1 ≤ axPi.len2rot 10 * |(4 : ℝ)| / 5 ∧ axPi.len2rot 10 * |(4 : ℝ)| / 5 ≤ 1000 := by
    rw [axPi_len2rot]
    norm_num
  exact (C1_rate_allocation axPi axPi 3 4 5 10 rfl h3.1 h3.2 h4.1 h4.2).2.2

/-! ### C2 — a stuck axis and the `> 200` escape hatch -/

/-- A channel on which every position query reports angle `100`. -/
def chBig : Channel := fun _ => ['1', '0', '0']

/-- The positioner state with the single axis `axPi`. -/
def stPi : PState := ⟨(0, 0, 0), [axPi]⟩

lemma getPosF_chBig (f2 q : ℕ) :
    getPosF 1 chBig q (Nat.succ f2) = (some (some 100), q + 1, [posQCmd 1]) := by
  have hp : parseInt ['1', '0', '0'] = some 100 := by decide
  simp [getPosF, chBig, hp]

lemma pyRound_five : pyRound 5 = 5 := by
  unfold pyRound
  rw [if_neg (by norm_num)]
  have : (5 : ℝ) + 1 / 2 = 11 / 2 := by norm_num
  rw [this, Int.floor_eq_iff]
  norm_num

/-- The per-axis polling loop against `chBig` with commanded angle 5 never
terminates: the not-there counter is reset to 0 each time it reaches 20, so
the `> 200` break is unreachable and the loop only ever stops by running
out of fuel. -/
lemma pollAxis_chBig (inF : ℕ) :
    ∀ fuel q cnt, cnt ≤ 19 → (pollAxis 1 5 chBig inF q cnt fuel).1 = RunOut.hang := by
  intro fuel
  induction fuel with
  | zero => intro q cnt _; rfl
  | succ f ih =>
    intro q cnt hcnt
    cases inF with
    | zero => simp [pollAxis, getPosF]
    | succ f2 =>
      have hg : getPosF 1 chBig q (Nat.succ f2) = (some (some 100), q + 1, [posQCmd 1]) :=
        getPosF_chBig f2 q
      by_cases hc : cnt + 1 = 20
      · have hstep : (pollAxis 1 5 chBig (Nat.succ f2) q cnt (Nat.succ f)).1 =
            (pollAxis 1 5 chBig (Nat.succ f2) (q + 1) 0 f).1 := by
          simp [pollAxis, hg, hc]
        rw [hstep]
        exact ih (q + 1) 0 (by omega)
      · have hc2 : ¬ cnt + 1 > 200 := by omega
        have hstep : (pollAxis 1 5 chBig (Nat.succ f2) q cnt (Nat.succ f)).1 =
            (pollAxis 1 5 chBig (Nat.succ f2) (q + 1) (cnt + 1) f).1 := by
          simp [pollAxis, hg, hc, hc2]
        rw [hstep]
        exact ih (q + 1) (cnt + 1) (by omega)

/-- C2: against a feedback channel that always reports an angle 95 degrees
away from the commanded one, `moveToPos` never returns, however long we
watch it: the counter reset at 20 makes the `> 200` report-and-break
unreachable, so the stuck axis is never reported and the move never
completes — the claimed escape hatch does not exist. -/
theorem C2_stuck_axis_never_escapes (inF fuel : ℕ) :
    (moveToPos stPi (5, 0, 0) (1 / 100) chBig inF fuel).1 = none := by
  have hm : magnitude3 (pSub (5, 0, 0) stPi.tarPos) = 5 := by
    show magnitude3 (pSub (5, 0, 0) ((0, 0, 0) : Point)) = 5
    rw [magnitude3_origin_sub]
    norm_num
  unfold moveToPos
  rw [if_neg (by rw [hm]; norm_num)]
  have haxes : stPi.axes.map (fun ax => ax.setTarget (5, 0, 0)) = [axPi.setTarget (5, 0, 0)] :=
    rfl
  have hpoll : ∀ q0, (pollAxes [axPi.setTarget (5, 0, 0)] chBig inF q0 fuel).1 = RunOut.hang := by
    intro q0
    have hid : (axPi.setTarget (5, 0, 0)).id = 1 := rfl
    have hang5 : pyRound (axPi.setTarget (5, 0, 0)).angle = 5 := by
      rw [axPi_angle_at 5 (by norm_num), pyRound_five]
    unfold pollAxes
    rw [hid, hang5]
    have hr := pollAxis_chBig inF fuel q0 0 (by omega)
    rcases he : pollAxis 1 5 chBig inF q0 0 fuel with ⟨o, q', cs⟩
    rw [he] at hr
    simp at hr
    subst hr
    simp
  simp only [haxes]
  rw [hpoll 0]
  rfl

/-! ### C7 — moveOnLine segmentation -/

lemma linspace_length (a b : ℝ) (n : ℕ) : (linspace a b n).length = n := by
  rw [linspace, List.length_map, List.length_range]

lemma velsOf_length (mv acc : ℝ) (n : ℕ) : (velsOf mv acc n).length = n := by
  rw [velsOf, List.length_map, parable, List.length_map, linspace_length]

lemma linspace_getElem (a b : ℝ) (n i : ℕ) (h : i < (linspace a b n).length) :
    (linspace a b n)[i] = a + (b - a) * i / ((n : ℝ) - 1) := by
  unfold linspace at h ⊢
  rw [List.getElem_map, List.getElem_range]

lemma zipline_length (x1 x2 y1 y2 z1 z2 mv acc : ℝ) (n : ℕ) :
    (List.zipWith (fun xyz v => (xyz, v))
      (List.zipWith (fun x yz => (x, yz.1, yz.2)) (linspace x1 x2 n)
        (List.zipWith (fun y z => (y, z)) (linspace y1 y2 n) (linspace z1 z2 n)))
      (velsOf mv acc n)).length = n := by
  simp [List.length_zipWith, linspace_length, velsOf_length]

lemma zipline_get (x1 x2 y1 y2 z1 z2 mv acc : ℝ) (n i : ℕ)
    (hi : i < (List.zipWith (fun xyz v => (xyz, v))
      (List.zipWith (fun x yz => (x, yz.1, yz.2)) (linspace x1 x2 n)
        (List.zipWith (fun y z => (y, z)) (linspace y1 y2 n) (linspace z1 z2 n)))
      (velsOf mv acc n)).length) :
    ((List.zipWith (fun xyz v => (xyz, v))
      (List.zipWith (fun x yz => (x, yz.1, yz.2)) (linspace x1 x2 n)
        (List.zipWith (fun y z => (y, z)) (linspace y1 y2 n) (linspace z1 z2 n)))
      (velsOf mv acc n)).get ⟨i, hi⟩).1 =
      (x1 + (x2 - x1) * i / ((n : ℝ) - 1), y1 + (y2 - y1) * i / ((n : ℝ) - 1),
       z1 + (z2 - z1) * i / ((n : ℝ) - 1)) := by
  have hx : i < (linspace x1 x2 n).length := by
    rw [linspace_length]
    have := hi
    rw [zipline_length] at this
    exact this
  have hy : i < (linspace y1 y2 n).length := by
    rw [linspace_length]
    have := hi
    rw [zipline_length] at this
    exact this
  have hz : i < (linspace z1 z2 n).length := by
    rw [linspace_length]
    have := hi
    rw [zipline_length] at this
    exact this
  simp only [List.get_eq_getElem, List.getElem_zipWith]
  rw [linspace_getElem x1 x2 n i hx, linspace_getElem y1 y2 n i hy, linspace_getElem z1 z2 n i hz]

/-- C7: `moveOnLine` computes `steps = floor(distance/res)`; with
`steps ≤ 1` it makes exactly one `moveToPos` call at `pos` with the
caller's velocity, and with `steps = N > 1` it makes exactly `N` calls
whose targets are the evenly spaced linear interpolations of each 3-D
coordinate between the old and the new position. -/
theorem C7_moveOnLine_segmentation (st : PState) (pos : Point) (maxVel acc res : ℝ)
    (hres : 0 < res) :
    truncInt (magnitude3 (pSub pos st.tarPos) / res) =
      ⌊magnitude3 (pSub pos st.tarPos) / res⌋ ∧
    (truncInt (magnitude3 (pSub pos st.tarPos) / res) ≤ 1 →
      moveOnLine st pos maxVel acc res = [(pos, maxVel)]) ∧
    (∀ N : ℕ, truncInt (magnitude3 (pSub pos st.tarPos) / res) = (N : ℤ) → 1 < N →
      (moveOnLine st pos maxVel acc res).length = N ∧
      ∀ i, (hi : i < (moveOnLine st pos maxVel acc res).length) →
        ((moveOnLine st pos maxVel acc res).get ⟨i, hi⟩).1 =
          (st.tarPos.1 + (pos.1 - st.tarPos.1) * i / ((N : ℝ) - 1),
           st.tarPos.2.1 + (pos.2.1 - st.tarPos.2.1) * i / ((N : ℝ) - 1),
           st.tarPos.2.2 + (pos.2.2 - st.tarPos.2.2) * i / ((N : ℝ) - 1))) := by
  have hd0 : 0 ≤ magnitude3 (pSub pos st.tarPos) / res := by
    apply div_nonneg _ (le_of_lt hres)
    exact Real.sqrt_nonneg _
  refine ⟨by unfold truncInt; rw [if_neg (not_lt.mpr hd0)], ?_, ?_⟩
  · intro hle
    simp only [moveOnLine]
    rw [if_neg]
    omega
  · intro N hN h1N
    have hpos : 1 < truncInt (magnitude3 (pSub pos st.tarPos) / res) := by
      rw [hN]
      exact_mod_cast h1N
    have htn : (truncInt (magnitude3 (pSub pos st.tarPos) / res)).toNat = N := by
      rw [hN]
      simp
    have hlist : moveOnLine st pos maxVel acc res =
        List.zipWith (fun xyz v => (xyz, v))
          (List.zipWith (fun x yz => (x, yz.1, yz.2)) (linspace st.tarPos.1 pos.1 N)
            (List.zipWith (fun y z => (y, z)) (linspace st.tarPos.2.1 pos.2.1 N)
              (linspace st.tarPos.2.2 pos.2.2 N)))
          (velsOf maxVel acc N) := by
      simp only [moveOnLine]
      rw [if_pos hpos, htn]
    constructor
    · rw [hlist]
      exact zipline_length _ _ _ _ _ _ _ _ N
    · intro i hi
      rw [List.get_of_eq hlist ⟨i, hi⟩]
      exact zipline_get _ _ _ _ _ _ _ _ N i _

/-- Witness for C7 at a 1 m move with 0.3 m resolution (3 segments). -/
theorem C7_witness : (moveOnLine ⟨(0, 0, 0), []⟩ (1, 0, 0) 2 0 (3 / 10)).length = 3 := by
  have h := C7_moveOnLine_segmentation ⟨(0, 0, 0), []⟩ (1, 0, 0) 2 0 (3 / 10) (by norm_num)
  have hsteps : truncInt (magnitude3 (pSub (1, 0, 0)
      (PState.tarPos ⟨(0, 0, 0), []⟩)) / (3 / 10)) = (3 : ℤ) := by
    show truncInt (magnitude3 (pSub (1, 0, 0) ((0, 0, 0) : Point)) / (3 / 10)) = (3 : ℤ)
    rw [magnitude3_origin_sub]
    have h1 : |(1 : ℝ)| / (3 / 10) = 10 / 3 := by norm_num
    rw [h1]
    unfold truncInt
    rw [if_neg (by norm_num), Int.floor_eq_iff]
    norm_num
  exact (h.2.2 3 hsteps (by norm_num)).1

/-! ### C5 — on-wire command syntax -/

lemma digitChar_isDigit (n : ℕ) : (digitChar n).isDigit := by
  unfold digitChar
  split <;> decide

lemma natCharsAux_digitStr : ∀ fuel n, n < fuel → DigitStr (natCharsAux fuel n) := by
  intro fuel
  induction fuel with
  | zero => intro n hn; omega
  | succ f ih =>
    intro n hn
    by_cases h : n < 10
    · constructor
      · simp [natCharsAux, h]
      · intro c hc
        simp [natCharsAux, h] at hc
        rw [hc]
        exact digitChar_isDigit n
    · have hdiv : n / 10 < f := by
        have h1 : n / 10 < n := Nat.div_lt_self (by omega) (by norm_num)
        omega
      have hrec := ih (n / 10) hdiv
      constructor
      · simp [natCharsAux, h]
      · intro c hc
        simp only [natCharsAux, if_neg h, List.mem_append, List.mem_singleton] at hc
        rcases hc with hc | hc
        · exact hrec.2 c hc
        · rw [hc]
          exact digitChar_isDigit (n % 10)

lemma digitStr_natChars (n : ℕ) : DigitStr (natChars n) :=
  natCharsAux_digitStr (n + 1) n (by omega)

lemma numStr_intChars (i : ℤ) : NumStr (intChars i) := by
  unfold intChars
  by_cases h : i < 0
  · rw [if_pos h]
    exact Or.inr ⟨natChars i.natAbs, rfl, digitStr_natChars _⟩
  · rw [if_neg h]
    exact Or.inl (digitStr_natChars _)

lemma wf_powOn (id : ℕ) : WireForm (("AXIS").toList) (powOnCmd id) :=
  ⟨powOnCmd id, ⟨natChars id, digitStr_natChars id, Or.inl rfl⟩, Or.inl rfl⟩

lemma wf_powQ (id : ℕ) : WireForm (("AXIS").toList) (powQCmd id) :=
  ⟨powQCmd id, ⟨natChars id, digitStr_natChars id, Or.inr (Or.inl rfl)⟩, Or.inl rfl⟩

lemma wf_rate (id : ℕ) (r : ℤ) : WireForm (("AXIS").toList) (rateCmd id r) :=
  ⟨rateCmd id r, ⟨natChars id, digitStr_natChars id,
    Or.inr (Or.inr (Or.inl ⟨intChars r, numStr_intChars r, rfl⟩))⟩, Or.inl rfl⟩

lemma wf_posSet (id : ℕ) (p : ℤ) : WireForm (("AXIS").toList) (posSetCmd id p) :=
  ⟨posSetCmd id p, ⟨natChars id, digitStr_natChars id,
    Or.inr (Or.inr (Or.inr (Or.inl ⟨intChars p, numStr_intChars p, rfl⟩)))⟩, Or.inl rfl⟩

lemma wf_posQ (id : ℕ) : WireForm (("AXIS").toList) (posQCmd id) :=
  ⟨posQCmd id, ⟨natChars id, digitStr_natChars id,
    Or.inr (Or.inr (Or.inr (Or.inr rfl)))⟩, Or.inl rfl⟩

lemma getPosF_cmds_wf (id : ℕ) (ch : Channel) :
    ∀ fuel q, ∀ c ∈ (getPosF id ch q fuel).2.2, WireForm (("AXIS").toList) c := by
  intro fuel
  induction fuel with
  | zero =>
    intro q c hc
    simp [getPosF] at hc
  | succ f ih =>
    intro q c hc
    by_cases h : ch q = []
    · simp only [getPosF, h, if_pos] at hc
      rcases List.mem_cons.mp hc with rfl | hm
      · exact wf_posQ id
      · exact ih (q + 1) c hm
    · simp only [getPosF, if_neg h, List.mem_singleton] at hc
      rw [hc]
      exact wf_posQ id

lemma pollAxis_cmds_wf (id : ℕ) (tgt : ℤ) (ch : Channel) (inF : ℕ) :
    ∀ fuel q cnt, ∀ c ∈ (pollAxis id tgt ch inF q cnt fuel).2.2, WireForm (("AXIS").toList) c := by
  intro fuel
  induction fuel with
  | zero =>
    intro q cnt c hc
    simp [pollAxis] at hc
  | succ f ih =>
    intro q cnt c hc
    rcases hg1 : (getPosF id ch q inF).1 with _ | o
    · simp only [pollAxis, hg1] at hc
      exact getPosF_cmds_wf id ch inF q c hc
    · rcases o with _ | p
      · simp only [pollAxis, hg1] at hc
        exact getPosF_cmds_wf id ch inF q c hc
      · by_cases hnear : (p - tgt).natAbs ≤ 1
        · simp only [pollAxis, hg1, if_pos hnear] at hc
          exact getPosF_cmds_wf id ch inF q c hc
        · by_cases h20 : cnt + 1 = 20
          · simp only [pollAxis, hg1, if_neg hnear, if_pos h20] at hc
            rcases List.mem_append.mp hc with hm | hm
            · exact getPosF_cmds_wf id ch inF q c hm
            · rcases List.mem_cons.mp hm with rfl | hm2
              · exact wf_rate id 10
              · rcases List.mem_cons.mp hm2 with rfl | hm3
                · exact wf_posSet id tgt
                · exact ih _ 0 c hm3
          · by_cases h200 : cnt + 1 > 200
            · simp only [pollAxis, hg1, if_neg hnear, if_neg h20, if_pos h200] at hc
              exact getPosF_cmds_wf id ch inF q c hc
            · simp only [pollAxis, hg1, if_neg hnear, if_neg h20, if_neg h200] at hc
              rcases List.mem_append.mp hc with hm | hm
              · exact getPosF_cmds_wf id ch inF q c hm
              · exact ih _ (cnt + 1) c hm

lemma pollAxes_cmds_wf (ch : Channel) (inF : ℕ) :
    ∀ axes fuel q, ∀ c ∈ (pollAxes axes ch inF q fuel).2.2, WireForm (("AXIS").toList) c := by
  intro axes
  induction axes with
  | nil =>
    intro fuel q c hc
    simp [pollAxes] at hc
  | cons ax rest ih =>
    intro fuel q c hc
    rcases hr1 : (pollAxis ax.id (pyRound ax.angle) ch inF q 0 fuel).1 with _ | _ | _
    · simp only [pollAxes, hr1] at hc
      exact pollAxis_cmds_wf ax.id (pyRound ax.angle) ch inF fuel q 0 c hc
    · simp only [pollAxes, hr1] at hc
      exact pollAxis_cmds_wf ax.id (pyRound ax.angle) ch inF fuel q 0 c hc
    · simp only [pollAxes, hr1] at hc
      rcases List.mem_append.mp hc with hm | hm
      · exact pollAxis_cmds_wf ax.id (pyRound ax.angle) ch inF fuel q 0 c hm
      · exact ih fuel _ c hm

lemma sendRateAndPos_cmds_wf (axes2 : List Axis) (diffs : List ℝ) (vel : ℝ) :
    ∀ c ∈ sendRateAndPos axes2 diffs vel, WireForm (("AXIS").toList) c := by
  intro c hc
  rcases List.mem_flatMap.mp hc with ⟨p, _, hcp⟩
  rcases List.mem_cons.mp hcp with rfl | hm
  · exact wf_rate _ _
  · rcases List.mem_cons.mp hm with rfl | hm2
    · exact wf_posSet _ _
    · simp at hm2

/-- C5 amended: every command string the core writes to the Command
Channel — by `addAxis` (power on/query), by `moveToPos` (rate and position
dispatch, the stuck-recovery re-sends and every position poll) and by
`getPos` (position query) — matches the spec's on-wire templates with the
literal `AXIS` before the axis id (`AXIS<id>:POW ON`, `AXIS<id>:POW?`,
`AXIS<id>:RATE <numeric>`, `AXIS<id>:POS <numeric>`, `AXIS<id>:POS?`,
optionally suffixed `;*OPC?`). -/
theorem C5_wire_syntax :
    (∀ (st : PState) (id : ℕ) (placed : Point) (diameter : ℝ) (attached : Point),
      ∀ c ∈ (addAxis st id placed diameter attached).2, WireForm (("AXIS").toList) c) ∧
    (∀ (st : PState) (pos : Point) (vel : ℝ) (ch : Channel) (inFuel fuel : ℕ),
      ∀ c ∈ (moveToPos st pos vel ch inFuel fuel).2, WireForm (("AXIS").toList) c) ∧
    (∀ (id : ℕ) (ch : Channel) (q fuel : ℕ),
      ∀ c ∈ (getPosF id ch q fuel).2.2, WireForm (("AXIS").toList) c) := by
  refine ⟨?_, ?_, ?_⟩
  · intro st id placed diameter attached c hc
    simp only [addAxis] at hc
    rcases List.mem_cons.mp hc with rfl | hm
    · exact wf_powOn id
    · rcases List.mem_cons.mp hm with rfl | hm2
      · exact wf_powQ id
      · simp at hm2
  · intro st pos vel ch inFuel fuel c hc
    by_cases h : magnitude3 (pSub pos st.tarPos) < 1 / 1000
    · simp only [moveToPos, if_pos h] at hc
      simp at hc
    · simp only [moveToPos, if_neg h] at hc
      rcases List.mem_append.mp hc with hm | hm
      · exact sendRateAndPos_cmds_wf _ _ vel c hm
      · exact pollAxes_cmds_wf ch inFuel _ fuel 0 c hm
  · intro id ch q fuel c hc
    exact getPosF_cmds_wf id ch fuel q c hc

/-- Witness for C5 on a concrete emitted command. -/
theorem C5_witness : WireForm (("AXIS").toList) (powOnCmd 0) :=
  C5_wire_syntax.1 ⟨(0, 0, 0), []⟩ 0 (0, 0, 0) 1 (0, 0, 0) (powOnCmd 0) (by simp [addAxis])

lemma ax_core_shape (idS r : List Char) (h : DigitStr idS) (rest : List Char) :
    'A' :: 'X' :: (idS ++ r) ≠ 'A' :: 'X' :: 'I' :: rest := by
  intro he
  injection he with _ h1
  injection h1 with _ h2
  rcases idS with _ | ⟨c, t⟩
  · exact h.1 rfl
  · rw [List.cons_append] at h2
    injection h2 with hc _
    have hdig := h.2 c (List.mem_cons_self c t)
    rw [hc] at hdig
    simp at hdig

/-- C5 counterexample: the command `addAxis` actually writes for axis 1,
`AXIS1:POW ON`, does not match the claimed `AX<id>` templates: after the
literal `AX` the character `I` is not a digit, so no choice of `<id>` fits. -/
theorem C5_counterexample : ¬ WireForm (("AX").toList) (powOnCmd 1) := by
  intro hw
  rcases hw with ⟨core, ⟨idS, hdig, hcase⟩, hs⟩
  have hp : powOnCmd 1 = 'A' :: 'X' :: 'I' :: ('S' :: '1' :: (":POW ON").toList) := by decide
  have key : ∀ R, powOnCmd 1 ≠ 'A' :: 'X' :: (idS ++ R) := by
    intro R he
    rw [hp] at he
    exact ax_core_shape idS R hdig _ he.symm
  have hAX : ("AX").toList = 'A' :: 'X' :: [] := by decide
  rcases hcase with h | h | ⟨nS, hn, h⟩ | ⟨nS, hn, h⟩ | h <;>
    rcases hs with hs | hs <;>
      (rw [h] at hs
       rw [hAX] at hs
       simp only [List.cons_append, List.nil_append, List.append_assoc] at hs
       exact key _ hs)

end

end SpiderRobot
